import Mathlib

/-!
Shallow embedding of the load-rs load-testing engine (src/lib.rs) and proofs
about its statistics aggregation, configuration validation, body sourcing and
output-file naming.

Modelling conventions:
* `std::time::Duration` is embedded as a natural number of nanoseconds
  (the struct stores seconds and nanoseconds; addition, comparison, `min`,
  `max` and sorting agree with the total nanosecond count).  `Duration / u32`
  is embedded by `durDiv`, which mirrors `Duration::checked_div` exactly
  (quotient of the seconds part, with the remainder carried into the
  nanosecond part).
* The `f64` quantile constants `0.5`, `0.90`, `0.95` are embedded as the exact
  rationals they denote, represented as numerator/denominator pairs
  (`Quantile`); the cast `(len as f64 * q) as usize` is the floor
  `len * num / den` in natural-number arithmetic.
* Wall-clock quantities (`rps`, `Instant::now`) and network transmission are
  outside the embedding; a completed request is represented by the data the
  stream delivers to `process_stream`: an ok/err flag, a duration, the
  0-based submission index and an optional source-file stem.
* Filesystem access is an explicit environment (`FileSystem`): a predicate
  saying which paths are regular files plus the bytes read from a path.
  Reading a file that passed the `is_file` check, PEM parsing of existing
  files and `Client::build` are abstracted as succeeding (the claims under
  study condition on valid certificate material).
* `PathBuf` values are embedded as elements of an arbitrary linearly ordered
  type (`Vec::sort` on `PathBuf` sorts by the path order, lexicographic on
  the underlying bytes); the uniform draw `random_range(0..len)` is an oracle
  `draw` reduced modulo the list length, and the Rust panics on an empty file
  list (`i % 0`, `random_range(0..0)`, out-of-bounds indexing) are the
  explicit outcome `DirRunOutcome.panics`.
-/

namespace LoadRs

/-- Nanoseconds per second, as in `Duration`. -/
def NANOS_PER_SEC : Nat := 1000000000

/-- Embedding of `Duration / u32` (`Duration::checked_div` with a nonzero
divisor): the duration `d` is split into seconds and sub-second nanoseconds,
the seconds are divided with the carry pushed into the nanosecond part, and
the result is returned as a total nanosecond count.  The two call sites
divide by `completed` (≥ 1) and by `requests` (> 0), so the Rust
divide-by-zero panic is unreachable; `durDiv d 0 = 0` is a junk value. -/
def durDiv (d rhs : Nat) : Nat :=
  let secs := d / NANOS_PER_SEC
  let nanos := d % NANOS_PER_SEC
  let q := secs / rhs
  let carry := secs % rhs
  let extra := carry * NANOS_PER_SEC / rhs
  q * NANOS_PER_SEC + (nanos / rhs + extra)

/-- The allowed HTTP methods (`HttpMethod` in src/lib.rs). -/
inductive HttpMethod where
  | Get
  | Post
  | Put
  | Delete
  | Patch
  | Head
deriving DecidableEq

/-- Order in which to process body files from a directory (`Order`). -/
inductive Order where
  | Sequential
  | Random
deriving DecidableEq

/-- Aggregated results of a load test run (`LoadTestResult`).  Durations are
nanosecond counts.  The `rps` field (successes divided by elapsed wall-clock
seconds, an `f64` of real time) is outside the embedding and omitted. -/
structure LoadTestResult where
  success : Nat
  failures : Nat
  completed : Nat
  total_duration : Nat
  durations : List Nat
  avg : Nat
  min : Nat
  max : Nat
  p50 : Nat
  p90 : Nat
  p95 : Nat
deriving DecidableEq

/-- `LoadTestResult::new()`: all counters, durations and statistics zero. -/
def LoadTestResult.new : LoadTestResult :=
  { success := 0, failures := 0, completed := 0, total_duration := 0,
    durations := [], avg := 0, min := 0, max := 0, p50 := 0, p90 := 0, p95 := 0 }

/-- One item of the completion stream consumed by `process_stream`: the Rust
tuple `(Result<Response>, Duration, u64, Option<OsString>)`.  `success` is
whether the `Result` is `Ok`, `duration` the measured wall-clock duration in
nanoseconds, `iteration` the 0-based submission index, `baseFileName` the
optional source-file stem. -/
structure Completion where
  success : Bool
  duration : Nat
  iteration : Nat
  baseFileName : Option String
deriving DecidableEq

/-- A nonnegative rational quantile `num / den`, the exact value of the `f64`
quantile argument of `get_quantiles`. -/
structure Quantile where
  num : Nat
  den : Nat
deriving DecidableEq

/-- Embedding of `LoadTestRunner::get_quantiles` (src/lib.rs:613-622): sort
the durations ascending, then for each quantile return the element at index
`(len as f64 * quantile) as usize` — the floor `len * num / den` — or the zero
duration when that index is out of bounds (`unwrap_or_default`). -/
def get_quantiles (durations : List Nat) (quantiles : List Quantile) : List Nat :=
  let sorted := durations.mergeSort fun a b => decide (a ≤ b)
  quantiles.map fun q => sorted.getD (sorted.length * q.num / q.den) 0

/-- The quantiles requested by `process_stream`: `[0.5, 0.90, 0.95]`, embedded
as exact rationals. -/
def streamQuantiles : List Quantile := [⟨1, 2⟩, ⟨9, 10⟩, ⟨19, 20⟩]

/-- One iteration of the `while let Some(..) = stream.next()` loop body of
`process_stream` (src/lib.rs:454-496), acting on the running
`LoadTestResult`: `completed` is incremented; on success the duration is
accumulated, `avg` is recomputed as `total_duration / completed`, `min`/`max`
are updated (with `Duration::default()` treated as "unset" for `min`) and the
duration is pushed; on failure only `failures` is incremented.  The
per-completion output-file write and the `in_progress` callback are
side effects that do not change the accumulator. -/
def process_one (r : LoadTestResult) (e : Completion) : LoadTestResult :=
  let completed := r.completed + 1
  if e.success then
    let total := r.total_duration + e.duration
    { r with
      completed := completed
      success := r.success + 1
      total_duration := total
      avg := durDiv total completed
      min := if r.min = 0 then e.duration else min r.min e.duration
      max := max r.max e.duration
      durations := r.durations ++ [e.duration] }
  else
    { r with completed := completed, failures := r.failures + 1 }

/-- Embedding of `LoadTestRunner::process_stream` (src/lib.rs:432-513) for a
given configured request count and a given completion stream, delivered as
the list of its items in completion order: fold the loop body over the
stream, then compute `p50`/`p90`/`p95` via `get_quantiles` (which sorts the
durations vector in place), and finally replace `avg` by
`total_duration / requests` when `requests > 0`, else the zero duration. -/
def process_stream (requests : Nat) (events : List Completion) : LoadTestResult :=
  let r := events.foldl process_one LoadTestResult.new
  let qs := get_quantiles r.durations streamQuantiles
  let r := { r with durations := r.durations.mergeSort fun a b => decide (a ≤ b) }
  let r :=
    match qs with
    | [a, b, c] => { r with p50 := a, p90 := b, p95 := c }
    | _ => r
  { r with avg := if requests > 0 then durDiv r.total_duration requests else 0 }

/-- The cumulative successful duration of a completion stream: the sum of the
durations of its `Ok` items. -/
def sumSuccess (events : List Completion) : Nat :=
  ((events.filter fun e => e.success).map fun e => e.duration).sum

/-- A stream with one 10 ns success followed by one failure: the state
observed by the progress callback after the second completion. -/
def successThenFailure : List Completion :=
  [⟨true, 10, 0, none⟩, ⟨false, 0, 1, none⟩]

/-- Whether an `Except` value is an error (`Result::is_err`). -/
def isErr : Except String Nat → Bool
  | .error _ => true
  | .ok _ => false

/-- A raw per-request outcome, before it is packed into the `Result` carried
by the completion stream: the transport may fail (`send()` returning `Err`),
the body file read may fail in a directory-sourced run (src/lib.rs:292-295),
or the server answers with some HTTP status code. -/
inductive RequestOutcome where
  | transportError
  | readError
  | status (code : Nat)
deriving DecidableEq

/-- Embedding of `reqwest::Response::error_for_status`, applied by every
request helper of the load-test path (`error_for_status == true`,
src/lib.rs:515-611): an HTTP status in the client-error (4xx) or server-error
(5xx) range turns the response into an `Err`. -/
def error_for_status (status : Nat) : Except String Nat :=
  if 400 ≤ status ∧ status ≤ 599 then .error "status error" else .ok status

/-- The `Result` carried by a stream item for a raw outcome: transport and
read failures are `Err` directly, an HTTP response goes through
`error_for_status`. -/
def executeResult : RequestOutcome → Except String Nat
  | .transportError => .error "transport error"
  | .readError => .error "read error"
  | .status code => error_for_status code

/-- Raw data of one completed request before classification. -/
structure RawItem where
  outcome : RequestOutcome
  duration : Nat
  iteration : Nat
  baseFileName : Option String

/-- The stream item `(Result, Duration, index, file stem)` produced for a raw
outcome. -/
def toCompletion (x : RawItem) : Completion :=
  ⟨(executeResult x.outcome).isOk, x.duration, x.iteration, x.baseFileName⟩

/-- The filesystem environment: which paths name regular files
(`Path::is_file`) and the bytes read from a path (`fs::read`). -/
structure FileSystem where
  isFile : String → Bool
  read : String → List Nat

/-- A filesystem with no regular files at all. -/
def fsEmpty : FileSystem := ⟨fun _ => false, fun _ => []⟩

/-- The configuration held by a `LoadTestRunner`; the built HTTP client is an
opaque capability and not part of the embedding. -/
structure LoadTestRunner where
  url : String
  requests : Nat
  concurrency : Nat
deriving DecidableEq

/-- Embedding of `LoadTestRunner::create_identity` (src/lib.rs:385-403): fail
when the certificate or the private key path is not a regular file; reading
the two files and `Identity::from_pem` on their concatenation are abstracted
as succeeding. -/
def create_identity (cert key : String) (fs : FileSystem) : Except String Unit :=
  if !fs.isFile cert then
    .error "Certificate does not exist or is not a file"
  else if !fs.isFile key then
    .error "Private key does not exist or is not a file"
  else
    .ok ()

/-- Embedding of `LoadTestRunner::new` (src/lib.rs:137-183): validate the URL,
the request count, the concurrency, then the optional CA-certificate path,
then — only when both are supplied — the client certificate and key paths via
`create_identity`.  `fs::read`, `Certificate::from_pem` and the client build
are abstracted as succeeding; the `insecure` flag only toggles certificate
verification inside the opaque client and is otherwise unused. -/
def LoadTestRunner.new (url : String) (requests concurrency : Nat)
    (ca_cert cert key : Option String) (_insecure : Option Bool)
    (fs : FileSystem) : Except String LoadTestRunner :=
  if url = "" then .error "URL cannot be empty"
  else if requests = 0 then .error "Number of requests cannot be zero"
  else if concurrency = 0 then .error "Number of concurrency cannot be zero"
  else if concurrency > requests then
    .error "Number of concurrency must be less than number of requests"
  else
    match
      (match ca_cert with
       | some ca_cert_path =>
           if !fs.isFile ca_cert_path then
             Except.error "CA certificate does not exist or is not a file"
           else Except.ok ()
       | none => Except.ok ()) with
    | .error e => .error e
    | .ok _ =>
        match
          (match cert, key with
           | some cert_path, some key_path => create_identity cert_path key_path fs
           | _, _ => Except.ok ()) with
        | .error e => .error e
        | .ok _ => .ok { url := url, requests := requests, concurrency := concurrency }

/-- The body source accepted by `run` and `debug` (`Body` in src/lib.rs):
literal in-memory bytes or a single file. -/
inductive Body where
  | Data (bytes : List Nat)
  | DataFile (path : String)
deriving DecidableEq

/-- Embedding of `LoadTestRunner::get_data` (src/lib.rs:405-419): literal
bytes are returned as-is; a data file must be a regular file, whose contents
are then read. -/
def get_data (body : Body) (fs : FileSystem) : Except String (List Nat) :=
  match body with
  | .Data data => .ok data
  | .DataFile data_file =>
      if !fs.isFile data_file then
        .error "Data file does not exist or is not a file"
      else
        .ok (fs.read data_file)

/-- One dispatched request: the method and the body bytes actually attached
to it. -/
structure SentRequest where
  method : HttpMethod
  body : List Nat
deriving DecidableEq

/-- The body the request helper attaches for a method: the `get` and `head`
builders (src/lib.rs:515-522, 604-611) send no body at all, the other helpers
attach the given bytes. -/
def requestBody (method : HttpMethod) (body : List Nat) : List Nat :=
  match method with
  | .Get => []
  | .Head => []
  | _ => body

/-- Embedding of the configuration-time part of `LoadTestRunner::run`
(src/lib.rs:206-238): the body is resolved once via `get_data` (defaulting to
empty literal bytes), and every request index then dispatches the method with
the body the corresponding helper attaches.  Network outcomes are consumed by
`process_stream` and are not modelled here. -/
def run_requests (method : HttpMethod) (body : Option Body) (fs : FileSystem)
    (requests : Nat) : Except String (List SentRequest) :=
  match get_data (body.getD (.Data [])) fs with
  | .error e => .error e
  | .ok data =>
      .ok ((List.range requests).map fun _ => ⟨method, requestBody method data⟩)

/-- Observable outcome of the configuration and body-selection phase of a
directory-sourced run: a configuration error (`bail!`), a Rust panic, or the
per-request-index list of selected body files. -/
inductive DirRunOutcome (α : Type) where
  | configError (msg : String)
  | panics
  | plan (files : List α)
deriving DecidableEq

/-- Embedding of the configuration and body-selection part of
`LoadTestRunner::run_from_dir` (src/lib.rs:263-310): GET/HEAD are rejected up
front with `bail!`; the listed regular files (an abstract list of paths,
generic in the linearly ordered path type) are sorted for determinism; then
request index `i` selects the sorted file at `i % file_count` (Sequential) or
at a uniformly drawn index below `file_count` (Random — the oracle `draw i`
reduced modulo the count).  With zero files and at least one request the
closure panics (`i % 0` or `random_range(0..0)`); with zero requests the
stream is empty and the closure never runs. -/
def run_from_dir_model {α : Type} [LinearOrder α] (method : HttpMethod)
    (files : List α) (order : Order) (draw : Nat → Nat) (requests : Nat) :
    DirRunOutcome α :=
  if method = HttpMethod.Get ∨ method = HttpMethod.Head then
    .configError "HTTP method not supported"
  else
    match files.mergeSort fun a b => decide (a ≤ b) with
    | [] => if requests = 0 then .plan [] else .panics
    | f0 :: rest =>
        .plan ((List.range requests).map fun i =>
          (f0 :: rest).getD
            (match order with
             | Order.Sequential => i % (f0 :: rest).length
             | Order.Random => draw i % (f0 :: rest).length) f0)

/-- Embedding of the configuration and body-selection part of
`LoadTestRunner::debug_from_dir` (src/lib.rs:356-383): GET/HEAD are rejected;
Sequential picks index 0, Random a uniformly drawn index; with zero files
both orders panic (indexing `file_names[0]` into an empty list, or
`random_range(0..0)`). -/
def debug_from_dir_model {α : Type} [LinearOrder α] (method : HttpMethod)
    (files : List α) (order : Order) (draw : Nat) : DirRunOutcome α :=
  if method = HttpMethod.Get ∨ method = HttpMethod.Head then
    .configError "HTTP method not supported"
  else
    match files.mergeSort fun a b => decide (a ≤ b) with
    | [] => .panics
    | f0 :: rest =>
        .plan [(f0 :: rest).getD
          (match order with
           | Order.Sequential => 0
           | Order.Random => draw % (f0 :: rest).length) f0]

/-- Zero padding `{:0width$}` of a nonnegative integer: its decimal
representation, left-padded with zeros up to the width (longer
representations are kept unchanged). -/
def zeroPad (width n : Nat) : String :=
  ⟨List.replicate (width - (toString n).length) (Char.ofNat 48)
    ++ (toString n).toList⟩

/-- Embedding of `LoadTestRunner::get_output_file` (src/lib.rs:624-647): the
output path is the output directory joined with
`{success|failure}-{iteration zero-padded to the width of num_requests}` plus
`-{base_file_name}` when a source stem is present, with extension `.json`.
`iteration` is the already 1-based sequence number (`process_stream` passes
`iteration + 1`). -/
def get_output_file (num_requests : Nat) (output_dir : String) (iteration : Nat)
    (base_file_name : Option String) (success : Bool) : String :=
  let width := (toString num_requests).length
  let tag := if success then "success" else "failure"
  match base_file_name with
  | some b =>
      output_dir ++ "/" ++ tag ++ "-" ++ zeroPad width iteration ++ "-" ++ b
        ++ ".json"
  | none =>
      output_dir ++ "/" ++ tag ++ "-" ++ zeroPad width iteration ++ ".json"

@[simp]
theorem process_one_completed (r : LoadTestResult) (e : Completion) :
    (process_one r e).completed = r.completed + 1 := by
  by_cases he : e.success <;> simp [process_one, he]

@[simp]
theorem process_one_success (r : LoadTestResult) (e : Completion) :
    (process_one r e).success = r.success + (if e.success then 1 else 0) := by
  by_cases he : e.success <;> simp [process_one, he]

@[simp]
theorem process_one_failures (r : LoadTestResult) (e : Completion) :
    (process_one r e).failures = r.failures + (if e.success then 0 else 1) := by
  by_cases he : e.success <;> simp [process_one, he]

@[simp]
theorem process_one_total_duration (r : LoadTestResult) (e : Completion) :
    (process_one r e).total_duration
      = r.total_duration + (if e.success then e.duration else 0) := by
  by_cases he : e.success <;> simp [process_one, he]

@[simp]
theorem process_one_durations (r : LoadTestResult) (e : Completion) :
    (process_one r e).durations
      = r.durations ++ (if e.success then [e.duration] else []) := by
  by_cases he : e.success <;> simp [process_one, he]

theorem sumSuccess_cons (e : Completion) (evs : List Completion) :
    sumSuccess (e :: evs) = (if e.success then e.duration else 0) + sumSuccess evs := by
  by_cases he : e.success <;> simp [sumSuccess, List.filter_cons, he]

theorem foldl_completed (events : List Completion) (r : LoadTestResult) :
    (events.foldl process_one r).completed = r.completed + events.length := by
  induction events generalizing r with
  | nil => simp
  | cons e evs ih => simp [List.foldl_cons, ih]; omega

theorem foldl_success (events : List Completion) (r : LoadTestResult) :
    (events.foldl process_one r).success
      = r.success + events.countP (fun e => e.success) := by
  induction events generalizing r with
  | nil => simp
  | cons e evs ih =>
    simp only [List.foldl_cons, ih, process_one_success, List.countP_cons]
    by_cases he : e.success <;> simp [he] <;> omega

theorem foldl_failures (events : List Completion) (r : LoadTestResult) :
    (events.foldl process_one r).failures
      = r.failures + events.countP (fun e => !e.success) := by
  induction events generalizing r with
  | nil => simp
  | cons e evs ih =>
    simp only [List.foldl_cons, ih, process_one_failures, List.countP_cons]
    by_cases he : e.success <;> simp [he] <;> omega

theorem foldl_total_duration (events : List Completion) (r : LoadTestResult) :
    (events.foldl process_one r).total_duration
      = r.total_duration + sumSuccess events := by
  induction events generalizing r with
  | nil => simp [sumSuccess]
  | cons e evs ih =>
    simp only [List.foldl_cons, ih, process_one_total_duration, sumSuccess_cons]
    omega

theorem foldl_durations (events : List Completion) (r : LoadTestResult) :
    (events.foldl process_one r).durations
      = r.durations ++ ((events.filter fun e => e.success).map fun e => e.duration) := by
  induction events generalizing r with
  | nil => simp
  | cons e evs ih =>
    simp only [List.foldl_cons, ih, process_one_durations, List.filter_cons]
    by_cases he : e.success <;> simp [he]

theorem process_stream_fields (requests : Nat) (events : List Completion) :
    (process_stream requests events).completed
        = (events.foldl process_one LoadTestResult.new).completed
    ∧ (process_stream requests events).success
        = (events.foldl process_one LoadTestResult.new).success
    ∧ (process_stream requests events).failures
        = (events.foldl process_one LoadTestResult.new).failures
    ∧ (process_stream requests events).total_duration
        = (events.foldl process_one LoadTestResult.new).total_duration
    ∧ (process_stream requests events).durations
        = (events.foldl process_one LoadTestResult.new).durations.mergeSort
            (fun a b => decide (a ≤ b))
    ∧ (process_stream requests events).avg
        = (if requests > 0
           then durDiv (events.foldl process_one LoadTestResult.new).total_duration requests
           else 0) := by
  unfold process_stream
  simp [get_quantiles, streamQuantiles]

theorem isErr_eq_not_isOk (e : Except String Nat) : isErr e = !e.isOk := by
  cases e <;> rfl

/-- Sorting with the order's `≤` yields an ascending list. -/
theorem sorted_mergeSort_le {α : Type} [LinearOrder α] (l : List α) :
    List.Sorted (· ≤ ·) (l.mergeSort fun a b => decide (a ≤ b)) := by
  have h := @List.sorted_mergeSort α (fun a b => decide (a ≤ b))
    (fun a b c h1 h2 => by
      simp only [decide_eq_true_eq] at h1 h2 ⊢
      exact le_trans h1 h2)
    (fun a b => by simpa using le_total a b) l
  exact h.imp fun hab => by simpa using hab

/-- C1: for every finished run with configured request count `N > 0`, the
final `avg` field equals the cumulative successful duration `D` divided (with
`Duration / u32` semantics) by the configured total `N` — not by the success
count (src/lib.rs:505-509). -/
theorem final_avg_eq_total_div_requests (requests : Nat) (events : List Completion)
    (h : 0 < requests) :
    (process_stream requests events).avg = durDiv (sumSuccess events) requests := by
  have hf := (process_stream_fields requests events).2.2.2.2.2
  rw [hf, foldl_total_duration]
  simp [LoadTestResult.new, h]

/-- Witness for C1 at a concrete run: 2 configured requests, one success of
6 ns and one failure; the final average is `durDiv 6 2`, diluted by the full
request budget. -/
theorem final_avg_eq_total_div_requests_witness :
    0 < 2
    ∧ (process_stream 2 [⟨true, 6, 0, none⟩, ⟨false, 0, 1, none⟩]).avg
        = durDiv (sumSuccess [⟨true, 6, 0, none⟩, ⟨false, 0, 1, none⟩]) 2 :=
  ⟨by decide, final_avg_eq_total_div_requests 2 _ (by decide)⟩

/-- C4 counterexample: after the failure completion of `successThenFailure`
is processed, the running `avg` is still 10 (set at the preceding success),
while the cumulative successful duration divided by the completed count at
that moment is `durDiv 10 2 = 5`: the claimed streaming invariant is false,
because the `Err` branch of the loop does not recompute `avg`
(src/lib.rs:481-494). -/
theorem streaming_avg_counterexample :
    (successThenFailure.foldl process_one LoadTestResult.new).avg = 10
    ∧ durDiv (successThenFailure.foldl process_one LoadTestResult.new).total_duration
        (successThenFailure.foldl process_one LoadTestResult.new).completed = 5
    ∧ ¬ ((successThenFailure.foldl process_one LoadTestResult.new).avg
          = durDiv (successThenFailure.foldl process_one LoadTestResult.new).total_duration
              (successThenFailure.foldl process_one LoadTestResult.new).completed) := by
  decide

/-- C4 (amended): during streaming, `avg` is recomputed — as the cumulative
successful duration divided by the completed count at that moment — only when
the processed completion is a success; a failure leaves `avg` at its previous
value. -/
theorem streaming_avg_update (events : List Completion) (e : Completion) :
    (List.foldl process_one LoadTestResult.new (events ++ [e])).avg
      = if e.success
        then durDiv
              (List.foldl process_one LoadTestResult.new (events ++ [e])).total_duration
              (List.foldl process_one LoadTestResult.new (events ++ [e])).completed
        else (List.foldl process_one LoadTestResult.new events).avg := by
  rw [List.foldl_append]
  by_cases he : e.success <;> simp [process_one, he]

/-- C5: after every update of the running result (any prefix of the
completion stream — the callback observes exactly these states) and in the
final returned result: `completed = success + failures`, `completed ≤ N`,
and the durations list length equals the success count. -/
theorem result_counters_invariant (requests : Nat) (events : List Completion)
    (h : events.length ≤ requests) :
    ((events.foldl process_one LoadTestResult.new).completed
        = (events.foldl process_one LoadTestResult.new).success
          + (events.foldl process_one LoadTestResult.new).failures
      ∧ (events.foldl process_one LoadTestResult.new).completed ≤ requests
      ∧ (events.foldl process_one LoadTestResult.new).durations.length
          = (events.foldl process_one LoadTestResult.new).success)
    ∧ ((process_stream requests events).completed
        = (process_stream requests events).success
          + (process_stream requests events).failures
      ∧ (process_stream requests events).completed ≤ requests
      ∧ (process_stream requests events).durations.length
          = (process_stream requests events).success) := by
  have hcount : events.countP (fun e => e.success)
      + events.countP (fun e => !e.success) = events.length := by
    simpa using (List.length_eq_countP_add_countP (fun e : Completion => e.success)
      (l := events)).symm
  have hfilter : (events.filter fun e => e.success).length
      = events.countP (fun e => e.success) := by
    simp [List.countP_eq_length_filter]
  have hfold : (events.foldl process_one LoadTestResult.new).completed
        = (events.foldl process_one LoadTestResult.new).success
          + (events.foldl process_one LoadTestResult.new).failures
      ∧ (events.foldl process_one LoadTestResult.new).completed ≤ requests
      ∧ (events.foldl process_one LoadTestResult.new).durations.length
          = (events.foldl process_one LoadTestResult.new).success := by
    refine ⟨?_, ?_, ?_⟩
    · rw [foldl_completed, foldl_success, foldl_failures]
      simp [LoadTestResult.new]
      omega
    · rw [foldl_completed]
      simp [LoadTestResult.new]
      omega
    · rw [foldl_durations, foldl_success]
      simp [LoadTestResult.new, List.length_map]
      omega
  refine ⟨hfold, ?_, ?_, ?_⟩
  · rw [(process_stream_fields requests events).1,
      (process_stream_fields requests events).2.1,
      (process_stream_fields requests events).2.2.1]
    exact hfold.1
  · rw [(process_stream_fields requests events).1]
    exact hfold.2.1
  · rw [(process_stream_fields requests events).2.2.2.2.1,
      (process_stream_fields requests events).2.1,
      (List.mergeSort_perm _ _).length_eq]
    exact hfold.2.2

/-- Witness for C5 at a concrete run: 2 configured requests, one success and
one failure processed. -/
theorem result_counters_invariant_witness :
    ([⟨true, 6, 0, none⟩, ⟨false, 0, 1, none⟩] : List Completion).length ≤ 2
    ∧ (((([⟨true, 6, 0, none⟩, ⟨false, 0, 1, none⟩] : List Completion).foldl
          process_one LoadTestResult.new).completed
        = (([⟨true, 6, 0, none⟩, ⟨false, 0, 1, none⟩] : List Completion).foldl
            process_one LoadTestResult.new).success
          + (([⟨true, 6, 0, none⟩, ⟨false, 0, 1, none⟩] : List Completion).foldl
              process_one LoadTestResult.new).failures
      ∧ (([⟨true, 6, 0, none⟩, ⟨false, 0, 1, none⟩] : List Completion).foldl
          process_one LoadTestResult.new).completed ≤ 2
      ∧ (([⟨true, 6, 0, none⟩, ⟨false, 0, 1, none⟩] : List Completion).foldl
          process_one LoadTestResult.new).durations.length
          = (([⟨true, 6, 0, none⟩, ⟨false, 0, 1, none⟩] : List Completion).foldl
              process_one LoadTestResult.new).success)
    ∧ ((process_stream 2 [⟨true, 6, 0, none⟩, ⟨false, 0, 1, none⟩]).completed
        = (process_stream 2 [⟨true, 6, 0, none⟩, ⟨false, 0, 1, none⟩]).success
          + (process_stream 2 [⟨true, 6, 0, none⟩, ⟨false, 0, 1, none⟩]).failures
      ∧ (process_stream 2 [⟨true, 6, 0, none⟩, ⟨false, 0, 1, none⟩]).completed ≤ 2
      ∧ (process_stream 2 [⟨true, 6, 0, none⟩, ⟨false, 0, 1, none⟩]).durations.length
          = (process_stream 2 [⟨true, 6, 0, none⟩, ⟨false, 0, 1, none⟩]).success)) :=
  ⟨by decide, result_counters_invariant 2 _ (by decide)⟩

/-- C2: the quantile algorithm.  For every ascending-sorted duration list and
every quantile `p = num/den` with `0 < p < 1` (equivalently `0 < num < den`),
the computed quantile is the element at index `⌊len * p⌋`, clamped to the
last valid index (the clamp is inert for `p < 1`, and on an empty list `getD`
yields the zero duration); every requested quantile of an empty list is the
zero duration; and on the ten sorted durations 1s..10s the stream quantiles
p50/p90/p95 are 6s (index 5), 10s and 10s (index 9). -/
theorem get_quantiles_spec :
    (∀ (l : List Nat) (num den : Nat), List.Sorted (· ≤ ·) l →
        0 < num → num < den →
        get_quantiles l [⟨num, den⟩]
          = [l.getD
              (min (⌊(l.length : ℚ) * ((num : ℚ) / (den : ℚ))⌋₊) (l.length - 1)) 0])
    ∧ (∀ qs : List Quantile, get_quantiles [] qs = qs.map fun _ => 0)
    ∧ get_quantiles
        [1000000000, 2000000000, 3000000000, 4000000000, 5000000000,
         6000000000, 7000000000, 8000000000, 9000000000, 10000000000]
        streamQuantiles
      = [6000000000, 10000000000, 10000000000] := by
  refine ⟨?_, ?_, ?_⟩
  · intro l num den hs h0 h1
    have hden : 0 < den := lt_trans h0 h1
    have hfloor : ⌊(l.length : ℚ) * ((num : ℚ) / (den : ℚ))⌋₊ = l.length * num / den := by
      rw [show (l.length : ℚ) * ((num : ℚ) / (den : ℚ))
            = ((l.length * num : ℕ) : ℚ) / ((den : ℕ) : ℚ) by push_cast; ring]
      rw [Nat.floor_div_nat, Nat.floor_natCast]
    have hsort : l.mergeSort (fun a b => decide (a ≤ b)) = l := List.mergeSort_eq_self hs
    simp only [get_quantiles, hsort, List.map_cons, List.map_nil]
    rw [hfloor]
    by_cases hl : l = []
    · subst hl
      simp
    · have hlen : 0 < l.length := List.length_pos.mpr hl
      have hidx : l.length * num / den < l.length := by
        rw [Nat.div_lt_iff_lt_mul hden]
        exact (mul_lt_mul_left hlen).mpr h1
      rw [Nat.min_eq_left (by omega)]
  · intro qs
    simp only [get_quantiles]
    have h : ([] : List Nat).mergeSort (fun a b => decide (a ≤ b)) = [] :=
      List.mergeSort_eq_self (by simp)
    rw [h]
    simp
  · have hms : ([1000000000, 2000000000, 3000000000, 4000000000, 5000000000,
        6000000000, 7000000000, 8000000000, 9000000000, 10000000000] :
          List Nat).mergeSort (fun a b => decide (a ≤ b))
        = [1000000000, 2000000000, 3000000000, 4000000000, 5000000000,
           6000000000, 7000000000, 8000000000, 9000000000, 10000000000] :=
      List.mergeSort_eq_self (by decide)
    simp only [get_quantiles, hms, streamQuantiles]
    decide

/-- Witness for C2 on the singleton sorted list `[5]` with `p = 1/2`. -/
theorem get_quantiles_spec_witness :
    List.Sorted (· ≤ ·) ([5] : List Nat) ∧ 0 < 1 ∧ 1 < 2
    ∧ get_quantiles [5] [⟨1, 2⟩]
        = [([5] : List Nat).getD
            (min (⌊(([5] : List Nat).length : ℚ) * (((1 : ℕ) : ℚ) / ((2 : ℕ) : ℚ))⌋₊)
              (([5] : List Nat).length - 1)) 0] :=
  ⟨List.sorted_singleton 5, by decide, by decide,
    get_quantiles_spec.1 [5] 1 2 (List.sorted_singleton 5) (by decide) (by decide)⟩

/-- C7: every per-request error — transport failure, body-file read failure,
or HTTP 4xx/5xx status — is counted toward `failures` and never toward
`success`; the stream is processed to the end (`completed` equals the number
of items, including those after any failure), and `process_stream` returns a
result rather than aborting. -/
theorem per_request_errors_counted (requests : Nat) (xs : List RawItem) :
    (process_stream requests (xs.map toCompletion)).failures
        = (xs.filter fun x => isErr (executeResult x.outcome)).length
    ∧ (process_stream requests (xs.map toCompletion)).success
        = (xs.filter fun x => (executeResult x.outcome).isOk).length
    ∧ (process_stream requests (xs.map toCompletion)).completed = xs.length
    ∧ (∀ code, isErr (executeResult (.status code)) = true ↔ 400 ≤ code ∧ code ≤ 599)
    ∧ isErr (executeResult .transportError) = true
    ∧ isErr (executeResult .readError) = true := by
  refine ⟨?_, ?_, ?_, ?_, rfl, rfl⟩
  · rw [(process_stream_fields requests (xs.map toCompletion)).2.2.1,
      foldl_failures, List.countP_map]
    simp only [LoadTestResult.new, Nat.zero_add, List.countP_eq_length_filter]
    congr 1
    apply List.filter_congr
    intro x _
    simp [toCompletion, Function.comp, isErr_eq_not_isOk]
  · rw [(process_stream_fields requests (xs.map toCompletion)).2.1,
      foldl_success, List.countP_map]
    simp only [LoadTestResult.new, Nat.zero_add, List.countP_eq_length_filter]
    congr 1
  · rw [(process_stream_fields requests (xs.map toCompletion)).1, foldl_completed]
    simp [LoadTestResult.new]
  · intro code
    by_cases h : 400 ≤ code ∧ code ≤ 599 <;>
      simp [executeResult, error_for_status, h, isErr]

/-- C3 counterexample: a GET run with a non-empty literal body is not
rejected at configuration time: `run` resolves the body and dispatches every
request, and the GET builder attaches no body (src/lib.rs:217-226,
515-522) — the body is silently ignored, contradicting the claim. -/
theorem get_with_body_not_rejected :
    run_requests .Get (some (.Data [104, 105])) fsEmpty 2
      = .ok [⟨.Get, []⟩, ⟨.Get, []⟩] := rfl

/-- C3 (amended): only the directory-sourced entry points reject GET/HEAD at
configuration time (`run_from_dir`, `debug_from_dir`); `run` with a literal
or single-file body does not error for GET/HEAD — every dispatched request
simply carries no body. -/
theorem get_head_body_policy {α : Type} [LinearOrder α] (method : HttpMethod)
    (files : List α) (order : Order) (draw : Nat → Nat) (requests : Nat)
    (body : Option Body) (fs : FileSystem)
    (hm : method = HttpMethod.Get ∨ method = HttpMethod.Head) :
    run_from_dir_model method files order draw requests
        = .configError "HTTP method not supported"
    ∧ debug_from_dir_model method files order (draw 0)
        = .configError "HTTP method not supported"
    ∧ ∀ reqs, run_requests method body fs requests = .ok reqs →
        ∀ r ∈ reqs, r.body = [] ∧ r.method = method := by
  refine ⟨?_, ?_, ?_⟩
  · simp [run_from_dir_model, hm]
  · simp [debug_from_dir_model, hm]
  · intro reqs hreqs r hr
    unfold run_requests at hreqs
    rcases hgd : get_data (body.getD (.Data [])) fs with e | data <;> rw [hgd] at hreqs
    · cases hreqs
    · simp only [Except.ok.injEq] at hreqs
      subst hreqs
      rcases List.mem_map.mp hr with ⟨i, _, hri⟩
      rcases hm with hm | hm <;> subst hm <;>
        simp [requestBody] at hri <;> simp [← hri, requestBody]

/-- Witness for C3 (amended) at GET with a non-empty literal body. -/
theorem get_head_body_policy_witness :
    (HttpMethod.Get = HttpMethod.Get ∨ HttpMethod.Get = HttpMethod.Head)
    ∧ (run_from_dir_model (α := Nat) HttpMethod.Get [1] Order.Sequential
          (fun _ => 0) 1 = .configError "HTTP method not supported"
      ∧ debug_from_dir_model (α := Nat) HttpMethod.Get [1] Order.Sequential
          ((fun _ => 0 : Nat → Nat) 0) = .configError "HTTP method not supported"
      ∧ ∀ reqs, run_requests HttpMethod.Get (some (.Data [104, 105])) fsEmpty 1
            = .ok reqs → ∀ r ∈ reqs, r.body = [] ∧ r.method = HttpMethod.Get) :=
  ⟨Or.inl rfl,
    get_head_body_policy HttpMethod.Get [1] Order.Sequential (fun _ => 0) 1
      (some (.Data [104, 105])) fsEmpty (Or.inl rfl)⟩

/-- C6 counterexample: a certificate path supplied without a key path is
never checked — `LoadTestRunner::new` validates the pair only when both are
present (`if let (Some(..), Some(..))`, src/lib.rs:174-176) — so construction
succeeds although the supplied certificate path names no file, where the
claim requires an error. -/
theorem new_cert_without_key_not_checked :
    LoadTestRunner.new "http://localhost:8080" 1 1 none (some "client.crt") none
        none fsEmpty
      = .ok ⟨"http://localhost:8080", 1, 1⟩
    ∧ fsEmpty.isFile "client.crt" = false :=
  ⟨rfl, rfl⟩

theorem create_identity_error (c k : String) (fs : FileSystem) :
    (∃ e, create_identity c k fs = .error e)
      ↔ (fs.isFile c = false ∨ fs.isFile k = false) := by
  by_cases hc : fs.isFile c <;> by_cases hk : fs.isFile k <;>
    simp [create_identity, hc, hk]

/-- C6 (amended): `LoadTestRunner::new` fails exactly when the URL is empty,
the request count is zero, the concurrency is zero or exceeds the request
count, a supplied CA-certificate path is not a regular file, or both a
certificate and a key path are supplied and one of them is not a regular
file.  A certificate (or key) supplied without its partner is not checked at
all, so — unlike the claim — it never causes an error by itself. -/
theorem new_error_conditions (url : String) (requests concurrency : Nat)
    (ca_cert cert key : Option String) (insecure : Option Bool) (fs : FileSystem) :
    (∃ e, LoadTestRunner.new url requests concurrency ca_cert cert key insecure fs
        = .error e)
      ↔ (url = "" ∨ requests = 0 ∨ concurrency = 0 ∨ requests < concurrency
         ∨ (∃ p, ca_cert = some p ∧ fs.isFile p = false)
         ∨ (∃ c k, cert = some c ∧ key = some k
             ∧ (fs.isFile c = false ∨ fs.isFile k = false))) := by
  by_cases hu : url = ""
  · simp [LoadTestRunner.new, hu]
  by_cases hr : requests = 0
  · simp [LoadTestRunner.new, hu, hr]
  by_cases hc0 : concurrency = 0
  · simp [LoadTestRunner.new, hu, hr, hc0]
  by_cases hcr : concurrency > requests
  · simp [LoadTestRunner.new, hu, hr, hc0, hcr, Nat.lt_of_lt_of_le]
  have hcr' : ¬ requests < concurrency := hcr
  rcases ca_cert with _ | p
  · rcases cert with _ | c
    · simp [LoadTestRunner.new, hu, hr, hc0, hcr, hcr']
    · rcases key with _ | k
      · simp [LoadTestRunner.new, hu, hr, hc0, hcr, hcr']
      · rcases hid : create_identity c k fs with e | u
        · simp only [LoadTestRunner.new, hu, hr, hc0, hcr, hid, if_false]
          simp [hu, hr, hc0, hcr']
          exact (create_identity_error c k fs).mp ⟨e, hid⟩
        · simp only [LoadTestRunner.new, hu, hr, hc0, hcr, hid, if_false]
          simp [hu, hr, hc0, hcr']
          have hok : fs.isFile c = true ∧ fs.isFile k = true := by
            have h1 : ¬ (fs.isFile c = false ∨ fs.isFile k = false) := by
              intro h
              obtain ⟨e, he⟩ := (create_identity_error c k fs).mpr h
              rw [hid] at he
              cases he
            simpa using h1
          exact hok
  · by_cases hp : fs.isFile p
    · rcases cert with _ | c
      · simp [LoadTestRunner.new, hu, hr, hc0, hcr, hcr', hp]
      · rcases key with _ | k
        · simp [LoadTestRunner.new, hu, hr, hc0, hcr, hcr', hp]
        · rcases hid : create_identity c k fs with e | u
          · simp only [LoadTestRunner.new, hu, hr, hc0, hcr, hid, hp, if_false]
            simp [hu, hr, hc0, hcr', hp]
            exact (create_identity_error c k fs).mp ⟨e, hid⟩
          · simp only [LoadTestRunner.new, hu, hr, hc0, hcr, hid, hp, if_false]
            simp [hu, hr, hc0, hcr', hp]
            have hok : fs.isFile c = true ∧ fs.isFile k = true := by
              have h1 : ¬ (fs.isFile c = false ∨ fs.isFile k = false) := by
                intro h
                obtain ⟨e, he⟩ := (create_identity_error c k fs).mpr h
                rw [hid] at he
                cases he
              simpa using h1
            exact hok
    · simp only [LoadTestRunner.new, hu, hr, hc0, hcr, hp, if_false]
      simp [hu, hr, hc0, hcr', hp]

/-- C8: for a Sequential directory-sourced run over at least one file with a
body-carrying method, the candidate list is sorted ascending by the path
order (a permutation of the directory listing), and request index `i`
selects the sorted file at position `i mod k` — cycling through the files
when `N > k`. -/
theorem sequential_dir_selection {α : Type} [LinearOrder α] (method : HttpMethod)
    (files : List α) (draw : Nat → Nat) (requests : Nat)
    (hg : method ≠ HttpMethod.Get) (hh : method ≠ HttpMethod.Head)
    (hne : files ≠ []) :
    List.Sorted (· ≤ ·) (files.mergeSort fun a b => decide (a ≤ b))
    ∧ (files.mergeSort fun a b => decide (a ≤ b)).Perm files
    ∧ ∃ bodies,
        run_from_dir_model method files Order.Sequential draw requests = .plan bodies
        ∧ bodies.length = requests
        ∧ ∀ i, i < requests →
            bodies.get? i
              = (files.mergeSort fun a b => decide (a ≤ b)).get? (i % files.length) := by
  refine ⟨sorted_mergeSort_le files, List.mergeSort_perm files _, ?_⟩
  rcases hsort : files.mergeSort fun a b => decide (a ≤ b) with _ | ⟨f0, rest⟩
  · exfalso
    have hp := List.mergeSort_perm files fun a b => decide (a ≤ b)
    rw [hsort] at hp
    exact hne hp.symm.eq_nil
  · have hlen : files.length = (f0 :: rest).length := by
      have hp := List.mergeSort_perm files fun a b => decide (a ≤ b)
      rw [hsort] at hp
      exact hp.length_eq.symm
    refine ⟨(List.range requests).map fun i =>
        (f0 :: rest).getD (i % (f0 :: rest).length) f0, ?_, by simp, ?_⟩
    · unfold run_from_dir_model
      rw [if_neg (by simp [hg, hh]), hsort]
    · intro i hi
      have hmod : i % (f0 :: rest).length < (f0 :: rest).length :=
        Nat.mod_lt _ (by simp)
      rw [hlen, List.get?_map, List.get?_range hi, List.get?_eq_get hmod]
      simp only [Option.map_some']
      congr 1
      rw [List.getD_eq_get?, List.get?_eq_get hmod]
      rfl

/-- Witness for C8: a POST run over the two files `[2, 1]` with 3 requests. -/
theorem sequential_dir_selection_witness :
    HttpMethod.Post ≠ HttpMethod.Get ∧ HttpMethod.Post ≠ HttpMethod.Head
    ∧ ([2, 1] : List Nat) ≠ []
    ∧ (List.Sorted (· ≤ ·) (([2, 1] : List Nat).mergeSort fun a b => decide (a ≤ b))
      ∧ (([2, 1] : List Nat).mergeSort fun a b => decide (a ≤ b)).Perm [2, 1]
      ∧ ∃ bodies,
          run_from_dir_model HttpMethod.Post [2, 1] Order.Sequential (fun _ => 0) 3
            = .plan bodies
          ∧ bodies.length = 3
          ∧ ∀ i, i < 3 →
              bodies.get? i
                = (([2, 1] : List Nat).mergeSort fun a b => decide (a ≤ b)).get?
                    (i % ([2, 1] : List Nat).length)) :=
  ⟨by decide, by decide, by decide,
    sequential_dir_selection HttpMethod.Post [2, 1] (fun _ => 0) 3
      (by decide) (by decide) (by decide)⟩

/-- C9: output-file naming.  For a persisted outcome with total request count
`N` and 0-based index `i`, the file name is `success`/`failure` by outcome,
then `i+1` zero-padded to the digit count of `N`, then `-label` when a source
label is present, with extension `.json`; the padded field is exactly
`max width digits` characters wide; and the spec's concrete vectors for
`N = 100`, `i = 2` are reproduced. -/
theorem output_file_naming :
    (∀ (num_requests : Nat) (dir : String) (i : Nat) (label : Option String)
        (success : Bool),
        get_output_file num_requests dir (i + 1) label success
          = dir ++ "/" ++ (if success then "success" else "failure") ++ "-"
            ++ zeroPad (toString num_requests).length (i + 1)
            ++ (match label with | some l => "-" ++ l | none => "") ++ ".json")
    ∧ (∀ width n, (zeroPad width n).length = max width (toString n).length)
    ∧ get_output_file 100 "/tmp" (2 + 1) none true = "/tmp/success-003.json"
    ∧ get_output_file 100 "/tmp" (2 + 1) (some "request") true
        = "/tmp/success-003-request.json"
    ∧ get_output_file 100 "/tmp" (2 + 1) none false = "/tmp/failure-003.json"
    ∧ get_output_file 100 "/tmp" (2 + 1) (some "request") false
        = "/tmp/failure-003-request.json" := by
  refine ⟨?_, ?_, by decide, by decide, by decide, by decide⟩
  · intro nr dir i label succ
    cases label <;> simp [get_output_file, String.append_assoc]
  · intro width n
    simp only [zeroPad]
    rcases h : toString n with ⟨data⟩
    simp only [String.length_mk, List.length_append, List.length_replicate,
      String.toList]
    omega

/-- C10: with a body-carrying method and an empty directory listing, both
`run_from_dir` (for at least one request) and `debug_from_dir` panic —
`i % 0`, `random_range(0..0)` or indexing `file_names[0]` into the empty
list — instead of reporting a configuration error; and with at least one
file, the selected index is always in bounds for both orders. -/
theorem empty_dir_panics {α : Type} [LinearOrder α] (method : HttpMethod)
    (order : Order) (draw : Nat → Nat) (d0 : Nat) (requests : Nat)
    (hg : method ≠ HttpMethod.Get) (hh : method ≠ HttpMethod.Head) :
    (1 ≤ requests →
      run_from_dir_model (α := α) method [] order draw requests = .panics)
    ∧ debug_from_dir_model (α := α) method [] order d0 = .panics
    ∧ (∀ msg, (DirRunOutcome.panics : DirRunOutcome α) ≠ .configError msg)
    ∧ ∀ (files : List α) (i : Nat), files ≠ [] →
        (match order with
         | Order.Sequential => i % (files.mergeSort fun a b => decide (a ≤ b)).length
         | Order.Random => draw i % (files.mergeSort fun a b => decide (a ≤ b)).length)
          < (files.mergeSort fun a b => decide (a ≤ b)).length := by
  refine ⟨?_, ?_, ?_, ?_⟩
  · intro hreq
    unfold run_from_dir_model
    rw [if_neg (by simp [hg, hh]), List.mergeSort_nil]
    rw [if_neg (by omega)]
  · unfold debug_from_dir_model
    rw [if_neg (by simp [hg, hh]), List.mergeSort_nil]
  · intro msg h
    exact DirRunOutcome.noConfusion h
  · intro files i hne
    have hlen : 0 < (files.mergeSort fun a b => decide (a ≤ b)).length := by
      rw [(List.mergeSort_perm _ _).length_eq]
      exact List.length_pos.mpr hne
    cases order
    · exact Nat.mod_lt _ hlen
    · exact Nat.mod_lt _ hlen

/-- Witness for C10 at a POST run with one request over an empty listing, and
the in-bounds selection over `[7]`. -/
theorem empty_dir_panics_witness :
    HttpMethod.Post ≠ HttpMethod.Get ∧ HttpMethod.Post ≠ HttpMethod.Head
    ∧ ((1 ≤ 1 →
        run_from_dir_model (α := Nat) HttpMethod.Post [] Order.Sequential
          (fun _ => 0) 1 = .panics)
      ∧ debug_from_dir_model (α := Nat) HttpMethod.Post [] Order.Sequential 0
          = .panics
      ∧ (∀ msg, (DirRunOutcome.panics : DirRunOutcome Nat) ≠ .configError msg)
      ∧ ∀ (files : List Nat) (i : Nat), files ≠ [] →
          (match Order.Sequential with
           | Order.Sequential =>
               i % (files.mergeSort fun a b => decide (a ≤ b)).length
           | Order.Random =>
               (fun _ => 0 : Nat → Nat) i
                 % (files.mergeSort fun a b => decide (a ≤ b)).length)
            < (files.mergeSort fun a b => decide (a ≤ b)).length) :=
  ⟨by decide, by decide,
    empty_dir_panics HttpMethod.Post Order.Sequential (fun _ => 0) 0 1
      (by decide) (by decide)⟩

end LoadRs
